import Mathlib

/-!
Shallow embedding of `src/fetch_jobs.py` (jobFindr): a single-file pipeline
that fetches job listings, deduplicates them by identifier, filters them by
recency against a cutoff (run start minus 48 hours), normalizes the fields,
sorts the result by posting date descending, and writes one JSON file.

Network effects are embedded by taking the per-search fetched results as an
explicit input.  Python exceptions that the script does not catch are
embedded with `Except`.  Machine-level details (actual HTTP, file IO) are
out of the model; everything else follows the source line by line.
-/

/-- Python exceptions relevant to the script that are not caught anywhere,
so they abort the run when raised. -/
inductive PyError where
  | valueError
  | typeError
  | attributeError
deriving DecidableEq, Repr

/-! ### Model of `datetime.fromisoformat` (Python standard library)

`datetime.fromisoformat` is standard-library code, not repository code, so it
is modelled here on the subset of ISO-8601 that matters: `YYYY-MM-DD`,
optionally followed by a separator and `HH:MM:SS`, optionally followed by a
UTC offset `+HH:MM` / `-HH:MM`.  A string without an offset parses to an
offset-naive datetime, one with an offset to an offset-aware datetime — the
distinction Python makes, which decides whether a later comparison with the
offset-aware cutoff raises `TypeError`. -/

/-- Result of a successful `datetime.fromisoformat`: an instant in seconds
(on the proleptic Gregorian calendar, UTC for aware values) together with
whether the datetime carries UTC-offset information. -/
structure PyDatetime where
  seconds : Int
  aware : Bool
deriving DecidableEq, Repr

def digitVal (c : Char) : Nat := c.toNat - 48

def isLeapYear (y : Nat) : Bool :=
  (y % 4 == 0 && y % 100 != 0) || y % 400 == 0

def daysInMonth (y m : Nat) : Nat :=
  if m == 2 then (if isLeapYear y then 29 else 28)
  else if m == 4 || m == 6 || m == 9 || m == 11 then 30
  else 31

/-- Days since the Unix epoch 1970-01-01 of a civil date (standard
era-based conversion). -/
def daysFromCivil (y m d : Nat) : Int :=
  let yAdj : Nat := if m ≤ 2 then y - 1 else y
  let era : Nat := yAdj / 400
  let yoe : Nat := yAdj % 400
  let mp : Nat := if m > 2 then m - 3 else m + 9
  let doy : Nat := (153 * mp + 2) / 5 + (d - 1)
  let doe : Nat := yoe * 365 + yoe / 4 - yoe / 100 + doy
  (era * 146097 + doe : Int) - 719468

/-- Parse `HH:MM:SS` plus optional `+HH:MM` / `-HH:MM` offset, given the
already-validated civil date. -/
def parseTimeOffset (y m d : Nat) (l : List Char) : Option PyDatetime :=
  match l with
  | h1 :: h2 :: ':' :: i1 :: i2 :: ':' :: s1 :: s2 :: rest =>
    if [h1, h2, i1, i2, s1, s2].all Char.isDigit then
      let hh := 10 * digitVal h1 + digitVal h2
      let mi := 10 * digitVal i1 + digitVal i2
      let ss := 10 * digitVal s1 + digitVal s2
      if hh ≤ 23 && mi ≤ 59 && ss ≤ 59 then
        let base : Int := daysFromCivil y m d * 86400 + (hh * 3600 + mi * 60 + ss : Nat)
        match rest with
        | [] => some ⟨base, false⟩
        | sign :: o1 :: o2 :: ':' :: o3 :: o4 :: [] =>
          if (sign == '+' || sign == '-') && [o1, o2, o3, o4].all Char.isDigit then
            let oh := 10 * digitVal o1 + digitVal o2
            let om := 10 * digitVal o3 + digitVal o4
            if oh ≤ 23 && om ≤ 59 then
              let off : Int := (oh * 3600 + om * 60 : Nat)
              some ⟨base - (if sign == '+' then off else -off), true⟩
            else none
          else none
        | _ => none
      else none
    else none
  | _ => none

/-- Model of `datetime.fromisoformat` on the supported subset; `none` models
a raised `ValueError`. -/
def fromisoformat (s : String) : Option PyDatetime :=
  match s.data with
  | y1 :: y2 :: y3 :: y4 :: '-' :: m1 :: m2 :: '-' :: d1 :: d2 :: rest =>
    if [y1, y2, y3, y4, m1, m2, d1, d2].all Char.isDigit then
      let y := ((digitVal y1 * 10 + digitVal y2) * 10 + digitVal y3) * 10 + digitVal y4
      let m := 10 * digitVal m1 + digitVal m2
      let d := 10 * digitVal d1 + digitVal d2
      if 1 ≤ y && 1 ≤ m && m ≤ 12 && 1 ≤ d && d ≤ daysInMonth y m then
        match rest with
        | [] => some ⟨daysFromCivil y m d * 86400, false⟩
        | sep :: trest =>
          if sep == 'T' || sep == ' ' then parseTimeOffset y m d trest else none
      else none
    else none
  | _ => none

/-- `posted.replace("Z", "+00:00")` on the character list: every occurrence
of `Z` is replaced. -/
def replaceZchars : List Char → List Char
  | [] => []
  | c :: cs =>
    if c == 'Z' then '+' :: '0' :: '0' :: ':' :: '0' :: '0' :: replaceZchars cs
    else c :: replaceZchars cs

def replaceZ (s : String) : String := ⟨replaceZchars s.data⟩

/-! ### Formatting helpers (lines 91-107 of the source) -/

/-- Insert thousands separators into a reversed digit list; `k` counts the
digits already emitted. -/
def commaRev : List Char → Nat → List Char
  | [], _ => []
  | c :: cs, k =>
    if k != 0 && k % 3 == 0 then ',' :: c :: commaRev cs (k + 1)
    else c :: commaRev cs (k + 1)

/-- Model of Python `f"{n:,.0f}"` on a natural number: decimal digits with
thousands separators. -/
def commaFmt (n : Nat) : String :=
  ⟨(commaRev (Nat.toDigits 10 n).reverse 0).reverse⟩

/-- Python truthiness of an optional salary number: `None` and `0` are
falsy. -/
def truthy : Option Nat → Bool
  | none => false
  | some n => n != 0

/-- Lines 96-107: the salary text, translated from the source including the
Python truthiness of the `if salary_min and salary_max` chain. -/
def formatSalary (mn mx : Option Nat) (period : String) : String :=
  if truthy mn && truthy mx then
    let base := "$" ++ commaFmt (mn.getD 0) ++ " - $" ++ commaFmt (mx.getD 0)
    if period != "" then base ++ " (" ++ period ++ ")" else base
  else if truthy mn then "From $" ++ commaFmt (mn.getD 0)
  else if truthy mx then "Up to $" ++ commaFmt (mx.getD 0)
  else ""

def isCommaSpace (c : Char) : Bool := c == ',' || c == ' '

/-- Python `str.strip(", ")`: drop leading and trailing commas/spaces. -/
def stripCommaSpace (s : String) : String :=
  ⟨((s.data.dropWhile isCommaSpace).reverse.dropWhile isCommaSpace).reverse⟩

/-! ### Data model -/

/-- One raw listing from the API, at the fields the script reads.  Fields
read with `job.get(key, default)` are embedded post-default (a missing field
coincides with its default); `job_title` and `employer_name` keep their
`Option` so the "Unknown" defaulting stays visible; the salary bounds are
`Option Nat` (absent or a number). -/
structure RawListing where
  job_id : String
  job_posted_at_datetime_utc : String
  job_is_remote : Bool
  job_city : String
  job_state : String
  job_min_salary : Option Nat
  job_max_salary : Option Nat
  job_salary_period : String
  job_title : Option String
  employer_name : Option String
  job_apply_link : String
  job_description : String
  employer_logo : String
deriving DecidableEq, Repr

/-- The normalized record appended to `all_jobs` (lines 109-120). -/
structure NormalizedListing where
  id : String
  title : String
  company : String
  location : String
  is_remote : Bool
  date_posted : String
  salary : String
  apply_link : String
  description_snippet : String
  employer_logo : String
deriving DecidableEq, Repr

/-- Lines 91-120: build the normalized record for an accepted listing. -/
def buildListing (job : RawListing) : NormalizedListing :=
  { id := job.job_id
    title := job.job_title.getD "Unknown Title"
    company := job.employer_name.getD "Unknown Company"
    location :=
      if job.job_is_remote then "Remote"
      else stripCommaSpace (job.job_city ++ ", " ++ job.job_state)
    is_remote := job.job_is_remote
    date_posted := job.job_posted_at_datetime_utc
    salary := formatSalary job.job_min_salary job.job_max_salary job.job_salary_period
    apply_link := job.job_apply_link
    description_snippet := ⟨job.job_description.data.take 200⟩
    employer_logo := job.employer_logo }

/-! ### The per-listing loop (lines 64-120) -/

/-- The mutable accumulator of `main`: `all_jobs` and `seen_ids`. -/
structure LoopState where
  all_jobs : List NormalizedListing
  seen_ids : List String
deriving DecidableEq, Repr

/-- Lines 80-87: the recency check.  `ok true` means the listing is skipped
as stale; `ok false` means it passes.  An empty timestamp skips the block; a
parse failure is the caught `ValueError` (`pass`); a successful parse of an
offset-naive timestamp reaches `posted_dt < cutoff`, which raises
`TypeError` when `cutoff` is offset-aware — and `TypeError` is not caught. -/
def recencyVerdict (c : Int) (posted : String) : Except PyError Bool :=
  if posted = "" then .ok false
  else
    match fromisoformat (replaceZ posted) with
    | none => .ok false
    | some dt =>
      if dt.aware then .ok (decide (dt.seconds < c)) else .error .typeError

/-- Lines 75-120: process one raw listing against the accumulator. -/
def processJob (c : Int) (st : LoopState) (job : RawListing) : Except PyError LoopState :=
  if job.job_id = "" ∨ job.job_id ∈ st.seen_ids then .ok st
  else
    match recencyVerdict c job.job_posted_at_datetime_utc with
    | .error e => .error e
    | .ok true => .ok st
    | .ok false =>
      .ok { all_jobs := st.all_jobs ++ [buildListing job]
            seen_ids := job.job_id :: st.seen_ids }

/-- The inner `for job in results` loop of one search. -/
def processSearch (c : Int) (st : LoopState) : List RawListing → Except PyError LoopState
  | [] => .ok st
  | job :: rest =>
    match processJob c st job with
    | .error e => .error e
    | .ok st1 => processSearch c st1 rest

/-- The outer `for search in SEARCHES` loop, with the per-search fetched
results given as input.  Also counts the HTTP requests issued: each search
whose results are processed (even if processing then aborts) was fetched. -/
def loopSearches (c : Int) (st : LoopState) :
    List (List RawListing) → Except PyError LoopState × Nat
  | [] => (.ok st, 0)
  | r :: rs =>
    match processSearch c st r with
    | .error e => (.error e, 1)
    | .ok st1 =>
      let p := loopSearches c st1 rs
      (p.1, p.2 + 1)

/-! ### Sorting (line 122)

`all_jobs.sort(key=lambda j: j["date_posted"], reverse=True)` is Python's
stable sort by the `date_posted` string, descending.  A stable sort for a
total preorder is unique, so Mathlib's stable `insertionSort` under the
relation "a comes no later than b iff b.date_posted ≤ a.date_posted" is the
same function. -/

/-- Lexicographic comparison of character lists by code point, the order
Python uses on strings. -/
def strLeB : List Char → List Char → Bool
  | [], _ => true
  | _ :: _, [] => false
  | a :: as, b :: bs =>
    if a.toNat < b.toNat then true
    else if b.toNat < a.toNat then false
    else strLeB as bs

/-- Python string `<=`. -/
def strLe (a b : String) : Bool := strLeB a.data b.data

theorem strLeB_cons_iff (a b : Char) (as bs : List Char) :
    strLeB (a :: as) (b :: bs) = true ↔
      a.toNat < b.toNat ∨ (a.toNat = b.toNat ∧ strLeB as bs = true) := by
  simp only [strLeB]
  split_ifs with h1 h2
  · simp [h1]
  · constructor
    · intro h; cases h
    · rintro (h | ⟨h, _⟩) <;> omega
  · have he : a.toNat = b.toNat := by omega
    simp [he, h1]

theorem strLeB_total : ∀ x y : List Char, strLeB x y = true ∨ strLeB y x = true
  | [], _ => Or.inl rfl
  | _ :: _, [] => Or.inr rfl
  | a :: as, b :: bs => by
    rw [strLeB_cons_iff, strLeB_cons_iff]
    rcases Nat.lt_trichotomy a.toNat b.toNat with h | h | h
    · exact Or.inl (Or.inl h)
    · rcases strLeB_total as bs with hr | hr
      · exact Or.inl (Or.inr ⟨h, hr⟩)
      · exact Or.inr (Or.inr ⟨h.symm, hr⟩)
    · exact Or.inr (Or.inl h)

theorem strLeB_trans :
    ∀ x y z : List Char, strLeB x y = true → strLeB y z = true → strLeB x z = true
  | [], _, _, _, _ => rfl
  | _ :: _, [], _, h1, _ => by simp [strLeB] at h1
  | _ :: _, _ :: _, [], _, h2 => by simp [strLeB] at h2
  | a :: as, b :: bs, c :: cs, h1, h2 => by
    rw [strLeB_cons_iff] at h1 h2 ⊢
    rcases h1 with h1 | ⟨h1e, h1r⟩
    · rcases h2 with h2 | ⟨h2e, _⟩
      · exact Or.inl (by omega)
      · exact Or.inl (by omega)
    · rcases h2 with h2 | ⟨h2e, h2r⟩
      · exact Or.inl (by omega)
      · exact Or.inr ⟨by omega, strLeB_trans as bs cs h1r h2r⟩

/-- "a sorts no later than b" for the descending sort of line 122. -/
def dateDesc (a b : NormalizedListing) : Prop :=
  strLe b.date_posted a.date_posted = true

instance : DecidableRel dateDesc := fun a b =>
  inferInstanceAs (Decidable (strLe b.date_posted a.date_posted = true))

instance : IsTotal NormalizedListing dateDesc :=
  ⟨fun a b => (strLeB_total b.date_posted.data a.date_posted.data).imp id id⟩

instance : IsTrans NormalizedListing dateDesc :=
  ⟨fun _ _ _ hab hbc => strLeB_trans _ _ _ hbc hab⟩

def sortJobs (l : List NormalizedListing) : List NormalizedListing :=
  List.insertionSort dateDesc l

/-! ### The run (lines 59-133) -/

/-- Observable outcome of one run: HTTP requests issued, process exit code,
and the jobs list written to `jobs.json` (`none` when no file is written). -/
structure RunOutcome where
  requests : Nat
  exitCode : Nat
  written : Option (List NormalizedListing)
deriving DecidableEq, Repr

/-- The jobs list a run produces, or the uncaught exception aborting it. -/
def runPipeline (c : Int) (fetched : List (List RawListing)) :
    Except PyError (List NormalizedListing) :=
  match (loopSearches c ⟨[], []⟩ fetched).1 with
  | .error e => .error e
  | .ok st => .ok (sortJobs st.all_jobs)

/-- `main`: the missing-credential guard (lines 60-62, exit code 1 before
any request or write), then the fetch/process loop, then the write.  An
uncaught exception ends the process with a nonzero exit code and no file. -/
def pyMain (apiKey : String) (c : Int) (fetched : List (List RawListing)) : RunOutcome :=
  if apiKey = "" then ⟨0, 1, none⟩
  else
    let r := loopSearches c ⟨[], []⟩ fetched
    match r.1 with
    | .error _ => ⟨r.2, 1, none⟩
    | .ok st => ⟨r.2, 0, some (sortJobs st.all_jobs)⟩

/-! ### The fetch step (lines 31-56) -/

/-- JSON values, for the body of a fetch response. -/
inductive Json where
  | null
  | bool (b : Bool)
  | num (n : Int)
  | str (s : String)
  | arr (elems : List Json)
  | obj (fields : List (String × Json))

def Json.isObj : Json → Bool
  | .obj _ => true
  | _ => false

def jsonLookup : List (String × Json) → String → Option Json
  | [], _ => none
  | (k, v) :: rest, key => if k == key then some v else jsonLookup rest key

/-- What the HTTP layer hands back for one search: an HTTP error status, a
transport failure, or a 2xx body (`none` when the body is not valid JSON,
in which case `json.loads` raises `JSONDecodeError`, a `ValueError`). -/
inductive FetchResponse where
  | httpError (code : Nat) (reason : String)
  | transportError (msg : String)
  | body (b : Option Json)

/-- Lines 47-56 of `fetch_jobs_for_query`: `HTTPError` and transport errors
are caught and degrade to `[]`; a `JSONDecodeError` from `json.loads` is a
`ValueError`, caught by neither handler; `data.get` on a non-object raises
`AttributeError`, also uncaught.  On an object body, the `data` field is
returned, defaulting to the empty list. -/
def fetch_jobs_for_query (resp : FetchResponse) : Except PyError Json :=
  match resp with
  | .httpError _ _ => .ok (.arr [])
  | .transportError _ => .ok (.arr [])
  | .body none => .error .valueError
  | .body (some (Json.obj fields)) => .ok ((jsonLookup fields "data").getD (.arr []))
  | .body (some _) => .error .attributeError

/-! ### Specification-side definition for the amended salary claim -/

/-- Modelled from the amended claim: the salary text with precedence keyed
on a bound being given, where a bound counts as given only when it is
present and nonzero. -/
def salaryTextSpec (mn mx : Option Nat) (period : String) : String :=
  let given : Option Nat → Bool := fun o =>
    match o with
    | none => false
    | some n => n != 0
  if given mn && given mx then
    "$" ++ commaFmt (mn.getD 0) ++ " - $" ++ commaFmt (mx.getD 0) ++
      (if period = "" then "" else " (" ++ period ++ ")")
  else if given mn then "From $" ++ commaFmt (mn.getD 0)
  else if given mx then "Up to $" ++ commaFmt (mx.getD 0)
  else ""

/-! ### Invariant carried by the accumulator -/

/-- Accepted listings have pairwise-distinct nonempty identifiers, all
recorded in the dedup set. -/
def GoodState (st : LoopState) : Prop :=
  (st.all_jobs.map (fun j => j.id)).Nodup ∧
  (∀ j ∈ st.all_jobs, j.id ∈ st.seen_ids) ∧
  (∀ j ∈ st.all_jobs, j.id ≠ "")

/-! ### Concrete inputs used by witnesses and counterexamples -/

/-- A raw listing with every field at its default. -/
def baseJob : RawListing :=
  { job_id := ""
    job_posted_at_datetime_utc := ""
    job_is_remote := false
    job_city := ""
    job_state := ""
    job_min_salary := none
    job_max_salary := none
    job_salary_period := ""
    job_title := none
    employer_name := none
    job_apply_link := ""
    job_description := ""
    employer_logo := "" }

/-- A run-start cutoff in mid-2025, in Unix seconds. -/
def exCutoff : Int := 1750000000

def exJobA : RawListing :=
  { baseJob with job_id := "A1", job_posted_at_datetime_utc := "2024-01-01T00:00:00Z" }

def exJobB : RawListing :=
  { baseJob with job_id := "B1", job_posted_at_datetime_utc := "2024-01-02T00:00:00Z" }

/-- Same identifier as `exJobA`, later timestamp. -/
def exJobDup : RawListing :=
  { baseJob with job_id := "A1", job_posted_at_datetime_utc := "2024-01-02T00:00:00Z" }

/-- Identifier present but equal to the empty string. -/
def exJobEmptyId : RawListing :=
  { baseJob with job_posted_at_datetime_utc := "2024-01-02T00:00:00Z" }

/-- A recent, parseable, offset-naive timestamp. -/
def exJobNaive : RawListing :=
  { baseJob with job_id := "N1", job_posted_at_datetime_utc := "2025-06-01T12:00:00" }

/-- A stale, parseable, offset-naive timestamp. -/
def exJobStaleNaive : RawListing :=
  { baseJob with job_id := "S1", job_posted_at_datetime_utc := "2020-01-01T00:00:00" }

/-- Stale offset-aware listing, same identifier as `exJobFreshAware`. -/
def exJobStaleAware : RawListing :=
  { baseJob with job_id := "A1", job_posted_at_datetime_utc := "2020-01-01T00:00:00Z" }

/-- Recent offset-aware listing, same identifier as `exJobStaleAware`. -/
def exJobFreshAware : RawListing :=
  { baseJob with job_id := "A1", job_posted_at_datetime_utc := "2030-01-01T00:00:00Z" }

/-- Minimum salary present but zero. -/
def exJobZeroMin : RawListing :=
  { baseJob with job_id := "Z1", job_min_salary := some 0, job_max_salary := some 120000,
                 job_salary_period := "year" }

/-- The accumulator after processing `exJobA` then `exJobB` from scratch. -/
def exAccepted : LoopState :=
  ⟨[buildListing exJobA, buildListing exJobB], ["B1", "A1"]⟩

/-! ### Helper lemmas -/

theorem strLeB_refl : ∀ x : List Char, strLeB x x = true
  | [] => rfl
  | a :: as => by simp [strLeB, strLeB_refl as]

theorem processJob_ok_cases (c : Int) (st : LoopState) (job : RawListing)
    (st1 : LoopState) (h : processJob c st job = .ok st1) :
    st1 = st ∨
      (job.job_id ≠ "" ∧ job.job_id ∉ st.seen_ids ∧
        st1 = ⟨st.all_jobs ++ [buildListing job], job.job_id :: st.seen_ids⟩) := by
  unfold processJob at h
  split at h
  · injection h with h
    exact Or.inl h.symm
  · next hcond =>
    push_neg at hcond
    split at h
    · exact Except.noConfusion h
    · injection h with h
      exact Or.inl h.symm
    · injection h with h
      exact Or.inr ⟨hcond.1, hcond.2, h.symm⟩

theorem goodState_init : GoodState ⟨[], []⟩ := by
  refine ⟨List.nodup_nil, ?_, ?_⟩ <;> intro j hj <;> cases hj

theorem processJob_good (c : Int) (st : LoopState) (job : RawListing)
    (st1 : LoopState) (hg : GoodState st) (h : processJob c st job = .ok st1) :
    GoodState st1 := by
  rcases processJob_ok_cases c st job st1 h with rfl | ⟨hne, hnotin, rfl⟩
  · exact hg
  · obtain ⟨hnd, hseen, hne0⟩ := hg
    have hnotin2 : job.job_id ∉ st.all_jobs.map (fun j => j.id) := by
      intro hmem
      rcases List.mem_map.mp hmem with ⟨j, hj, hjid⟩
      exact hnotin (hjid ▸ hseen j hj)
    refine ⟨?_, ?_, ?_⟩
    · simpa [List.nodup_append, hnd] using hnotin2
    · intro j hj
      rcases List.mem_append.mp hj with hj | hj
      · exact List.mem_cons_of_mem _ (hseen j hj)
      · rcases List.mem_singleton.mp hj with rfl
        exact List.mem_cons_self _ _
    · intro j hj
      rcases List.mem_append.mp hj with hj | hj
      · exact hne0 j hj
      · rcases List.mem_singleton.mp hj with rfl
        exact hne

theorem processSearch_good :
    ∀ (r : List RawListing) (c : Int) (st st1 : LoopState),
      GoodState st → processSearch c st r = .ok st1 → GoodState st1
  | [], _, _, _, hg, h => by
    injection h with h
    exact h ▸ hg
  | job :: rest, c, st, st1, hg, h => by
    unfold processSearch at h
    split at h
    · exact Except.noConfusion h
    · next st2 heq =>
      exact processSearch_good rest c st2 st1 (processJob_good c st job st2 hg heq) h

theorem loopSearches_good :
    ∀ (f : List (List RawListing)) (c : Int) (st st1 : LoopState),
      GoodState st → (loopSearches c st f).1 = .ok st1 → GoodState st1
  | [], _, _, _, hg, h => by
    injection h with h
    exact h ▸ hg
  | r :: rs, c, st, st1, hg, h => by
    unfold loopSearches at h
    split at h
    · exact Except.noConfusion h
    · next st2 heq =>
      exact loopSearches_good rs c st2 st1 (processSearch_good r c st st2 hg heq) h

theorem loopSearches_insert_empty (c : Int) (post : List (List RawListing)) :
    ∀ (pre : List (List RawListing)) (st : LoopState),
      (loopSearches c st (pre ++ [] :: post)).1 = (loopSearches c st (pre ++ post)).1
  | [], st => by
    simp only [List.nil_append]
    conv_lhs => rw [loopSearches]
    simp [processSearch]
  | r :: pre, st => by
    simp only [List.cons_append]
    rw [loopSearches, loopSearches]
    cases hps : processSearch c st r with
    | error e => rfl
    | ok st1 => simpa using loopSearches_insert_empty c post pre st1

theorem filter_orderedInsert_eq (k : String) (x : NormalizedListing)
    (hx : x.date_posted = k) :
    ∀ l : List NormalizedListing,
      (List.orderedInsert dateDesc x l).filter (fun j => j.date_posted == k) =
        x :: l.filter (fun j => j.date_posted == k)
  | [] => by simp [hx]
  | y :: l => by
    by_cases hxy : dateDesc x y
    · rw [List.orderedInsert_of_le dateDesc _ hxy]
      simp [List.filter_cons, hx]
    · have hins : List.orderedInsert dateDesc x (y :: l) =
          y :: List.orderedInsert dateDesc x l := by
        simp [List.orderedInsert, hxy]
      have hyk : (y.date_posted == k) = false := by
        apply beq_eq_false_iff_ne.mpr
        intro hyk
        apply hxy
        unfold dateDesc strLe
        rw [hyk, hx]
        exact strLeB_refl k.data
      rw [hins]
      simp [List.filter_cons, hyk, filter_orderedInsert_eq k x hx l]

theorem filter_orderedInsert_ne (k : String) (x : NormalizedListing)
    (hx : (x.date_posted == k) = false) :
    ∀ l : List NormalizedListing,
      (List.orderedInsert dateDesc x l).filter (fun j => j.date_posted == k) =
        l.filter (fun j => j.date_posted == k)
  | [] => by simp [hx]
  | y :: l => by
    by_cases hxy : dateDesc x y
    · rw [List.orderedInsert_of_le dateDesc _ hxy]
      simp [List.filter_cons, hx]
    · have hins : List.orderedInsert dateDesc x (y :: l) =
          y :: List.orderedInsert dateDesc x l := by
        simp [List.orderedInsert, hxy]
      rw [hins]
      simp [List.filter_cons, filter_orderedInsert_ne k x hx l]

theorem filter_sortJobs (k : String) :
    ∀ l : List NormalizedListing,
      (sortJobs l).filter (fun j => j.date_posted == k) =
        l.filter (fun j => j.date_posted == k)
  | [] => rfl
  | x :: l => by
    have hrec := filter_sortJobs k l
    unfold sortJobs at hrec ⊢
    rw [List.insertionSort]
    by_cases hx : x.date_posted = k
    · rw [filter_orderedInsert_eq k x hx (List.insertionSort dateDesc l), hrec]
      simp [List.filter_cons, hx]
    · have hxb : (x.date_posted == k) = false := beq_eq_false_iff_ne.mpr hx
      rw [filter_orderedInsert_ne k x hxb (List.insertionSort dateDesc l), hrec]
      simp [List.filter_cons, hxb]

/-! ### Claims -/

/-- C1: the `id` values of the listings in the output `jobs` list are
pairwise distinct; once an identifier is in the dedup set, every later raw
listing carrying it is discarded (state unchanged). -/
theorem output_ids_pairwise_distinct :
    (∀ (c : Int) (st : LoopState) (job : RawListing),
        job.job_id ∈ st.seen_ids → processJob c st job = .ok st) ∧
    (∀ (c : Int) (fetched : List (List RawListing)) (out : List NormalizedListing),
        runPipeline c fetched = .ok out → (out.map (fun j => j.id)).Nodup) := by
  constructor
  · intro c st job h
    unfold processJob
    rw [if_pos (Or.inr h)]
  · intro c fetched out h
    unfold runPipeline at h
    split at h
    · exact Except.noConfusion h
    · next st heq =>
      injection h with h
      subst h
      have hg := loopSearches_good fetched c ⟨[], []⟩ st goodState_init heq
      exact ((List.perm_insertionSort dateDesc st.all_jobs).map
        (fun j => j.id)).nodup_iff.mpr hg.1

/-- Witness for C1: a duplicate of the already-seen identifier `A1` is
discarded, and a concrete three-listing run (with a duplicated identifier in
the input) yields output with pairwise-distinct ids. -/
theorem output_ids_pairwise_distinct_witness :
    processJob 0 ⟨[], ["A1"]⟩ exJobA = .ok ⟨[], ["A1"]⟩ ∧
    (([buildListing exJobB, buildListing exJobA]).map (fun j => j.id)).Nodup := by
  constructor
  · exact output_ids_pairwise_distinct.1 0 ⟨[], ["A1"]⟩ exJobA (by simp [exJobA, baseJob])
  · exact output_ids_pairwise_distinct.2 0 [[exJobA, exJobDup, exJobB]]
      [buildListing exJobB, buildListing exJobA] rfl

/-- C2 (code bug): a listing whose timestamp is present, parseable and
strictly earlier than the cutoff is supposed to be discarded with the run
continuing; when the parseable timestamp carries no UTC offset the code
instead raises an uncaught `TypeError` comparing an offset-naive datetime
with the offset-aware cutoff, aborting the run with no output file. -/
theorem stale_naive_timestamp_aborts :
    pyMain "RAPIDAPIKEYVALUE" exCutoff [[exJobStaleNaive]] = ⟨1, 1, none⟩ ∧
    fromisoformat (replaceZ exJobStaleNaive.job_posted_at_datetime_utc) =
      some ⟨1577836800, false⟩ ∧
    (1577836800 : Int) < exCutoff := by
  refine ⟨rfl, rfl, by decide⟩

/-- C3 (code bug): timestamp handling is supposed never to abort the run,
but a present, parseable, offset-naive timestamp makes the per-listing
processing raise an uncaught `TypeError` (only `ValueError` is caught). -/
theorem naive_timestamp_uncaught_typeerror :
    recencyVerdict exCutoff "2025-06-01T12:00:00" = .error .typeError ∧
    processJob exCutoff ⟨[], []⟩ exJobNaive = .error .typeError ∧
    fromisoformat "2025-06-01T12:00:00" = some ⟨1748779200, false⟩ :=
  ⟨rfl, rfl, rfl⟩

/-- C4 counterexample: a listing with `job_min_salary` present but zero and
`job_max_salary` 120000 is accepted into the output, yet its salary text is
"Up to $120,000", not the claimed "$0 - $120,000 (year)", because the code
keys the precedence on Python truthiness rather than presence. -/
theorem zero_min_salary_counterexample :
    runPipeline 0 [[exJobZeroMin]] = .ok [buildListing exJobZeroMin] ∧
    (buildListing exJobZeroMin).salary = "Up to $120,000" ∧
    (buildListing exJobZeroMin).salary ≠ "$0 - $120,000 (year)" :=
  ⟨rfl, rfl, by decide⟩

/-- C4 as amended: the salary text precedence is keyed on a bound being
given, where a bound counts as given only when present and nonzero; the
claimed concrete examples hold. -/
theorem salary_text_amended :
    (∀ (mn mx : Option Nat) (p : String), formatSalary mn mx p = salaryTextSpec mn mx p) ∧
    formatSalary (some 80000) (some 120000) "year" = "$80,000 - $120,000 (year)" ∧
    formatSalary (some 80000) none "" = "From $80,000" ∧
    formatSalary none (some 120000) "" = "Up to $120,000" ∧
    formatSalary none none "year" = "" := by
  refine ⟨?_, rfl, rfl, rfl, rfl⟩
  intro mn mx p
  by_cases hp : p = "" <;>
    cases mn <;> cases mx <;>
      simp [formatSalary, salaryTextSpec, truthy, hp, String.append_assoc]

/-- C5: the output `jobs` list is the accepted listings sorted stably by the
`date_posted` string in descending lexical order: it is a permutation of the
accepted listings, consecutive elements are non-increasing under plain text
comparison (the empty string included, uncorrected), and listings sharing a
`date_posted` key keep their acceptance order. -/
theorem jobs_sorted_desc_stable (c : Int) (fetched : List (List RawListing))
    (st : LoopState) (h : (loopSearches c ⟨[], []⟩ fetched).1 = .ok st) :
    runPipeline c fetched = .ok (sortJobs st.all_jobs) ∧
    (sortJobs st.all_jobs).Perm st.all_jobs ∧
    List.Sorted dateDesc (sortJobs st.all_jobs) ∧
    ∀ k, (sortJobs st.all_jobs).filter (fun j => j.date_posted == k) =
          st.all_jobs.filter (fun j => j.date_posted == k) := by
  refine ⟨?_, List.perm_insertionSort dateDesc st.all_jobs,
    List.sorted_insertionSort dateDesc st.all_jobs, fun k => filter_sortJobs k st.all_jobs⟩
  unfold runPipeline
  rw [h]

/-- Witness for C5 at a concrete two-search run. -/
theorem jobs_sorted_desc_stable_witness :
    runPipeline 0 [[exJobA, exJobB]] = .ok (sortJobs exAccepted.all_jobs) ∧
    (sortJobs exAccepted.all_jobs).Perm exAccepted.all_jobs ∧
    List.Sorted dateDesc (sortJobs exAccepted.all_jobs) ∧
    (∀ k, (sortJobs exAccepted.all_jobs).filter (fun j => j.date_posted == k) =
          exAccepted.all_jobs.filter (fun j => j.date_posted == k)) :=
  jobs_sorted_desc_stable 0 [[exJobA, exJobB]] exAccepted rfl

/-- C6: with the credential absent (the empty environment value), the run
exits with a nonzero status having issued no request and written no file. -/
theorem missing_credential_preflight_exit (c : Int) (fetched : List (List RawListing)) :
    (pyMain "" c fetched).exitCode ≠ 0 ∧
    (pyMain "" c fetched).requests = 0 ∧
    (pyMain "" c fetched).written = none := by
  refine ⟨?_, rfl, rfl⟩
  intro h
  exact Nat.one_ne_zero h

/-- C7: an HTTP-status or transport failure for one search degrades to an
empty result list for that search; an empty result list leaves the
accumulator unchanged, and a run with such a search inserted reaches the
write step with the same exit code and the same written file as the run
without it. -/
theorem per_search_errors_degrade :
    (∀ (code : Nat) (reason : String),
        fetch_jobs_for_query (.httpError code reason) = .ok (.arr [])) ∧
    (∀ msg : String, fetch_jobs_for_query (.transportError msg) = .ok (.arr [])) ∧
    (∀ (c : Int) (st : LoopState), processSearch c st [] = .ok st) ∧
    (∀ (key : String) (c : Int) (pre post : List (List RawListing)),
        (pyMain key c (pre ++ [] :: post)).exitCode = (pyMain key c (pre ++ post)).exitCode ∧
        (pyMain key c (pre ++ [] :: post)).written = (pyMain key c (pre ++ post)).written) := by
  refine ⟨fun _ _ => rfl, fun _ => rfl, fun _ _ => rfl, ?_⟩
  intro key c pre post
  unfold pyMain
  by_cases hk : key = ""
  · simp [hk]
  · simp only [if_neg hk]
    rw [loopSearches_insert_empty c post pre ⟨[], []⟩]
    cases (loopSearches c ⟨[], []⟩ (pre ++ post)).1 <;> exact ⟨rfl, rfl⟩

/-- C8: a listing rejected by the recency check is never marked seen, so a
later listing with the same identifier and a passing timestamp is still
accepted: processing the stale listing leaves the state unchanged, and the
two-search run accepts the fresh one. -/
theorem stale_not_marked_seen (c : Int) (st : LoopState) (j1 j2 : RawListing)
    (hid : j1.job_id = j2.job_id) (hne : j2.job_id ≠ "")
    (hseen : j2.job_id ∉ st.seen_ids)
    (hstale : recencyVerdict c j1.job_posted_at_datetime_utc = .ok true)
    (hfresh : recencyVerdict c j2.job_posted_at_datetime_utc = .ok false) :
    processJob c st j1 = .ok st ∧
    (loopSearches c st [[j1], [j2]]).1 =
      .ok ⟨st.all_jobs ++ [buildListing j2], j2.job_id :: st.seen_ids⟩ := by
  have hcond1 : ¬(j1.job_id = "" ∨ j1.job_id ∈ st.seen_ids) := by
    rw [hid]
    rintro (h | h)
    · exact hne h
    · exact hseen h
  have hcond2 : ¬(j2.job_id = "" ∨ j2.job_id ∈ st.seen_ids) := by
    rintro (h | h)
    · exact hne h
    · exact hseen h
  have h1 : processJob c st j1 = .ok st := by
    unfold processJob
    rw [if_neg hcond1, hstale]
  have h2 : processJob c st j2 =
      .ok ⟨st.all_jobs ++ [buildListing j2], j2.job_id :: st.seen_ids⟩ := by
    unfold processJob
    rw [if_neg hcond2, hfresh]
  refine ⟨h1, ?_⟩
  simp [loopSearches, processSearch, h1, h2]

/-- Witness for C8: the stale and fresh listings share identifier `A1`; the
stale one leaves the empty state untouched and the fresh one is accepted by
the second search. -/
theorem stale_not_marked_seen_witness :
    processJob exCutoff ⟨[], []⟩ exJobStaleAware = .ok ⟨[], []⟩ ∧
    (loopSearches exCutoff ⟨[], []⟩ [[exJobStaleAware], [exJobFreshAware]]).1 =
      .ok ⟨[buildListing exJobFreshAware], ["A1"]⟩ :=
  stale_not_marked_seen exCutoff ⟨[], []⟩ exJobStaleAware exJobFreshAware rfl
    (by decide) (by simp) rfl rfl

/-- C9: the fetch step's suppression covers only HTTP-status and transport
failures: a 2xx body that is not valid JSON raises an uncaught `ValueError`
(`JSONDecodeError`), and a valid JSON body whose top level is not an object
raises an uncaught `AttributeError`, instead of degrading to zero results. -/
theorem malformed_body_uncaught :
    fetch_jobs_for_query (.body none) = .error .valueError ∧
    ∀ j : Json, j.isObj = false →
      fetch_jobs_for_query (.body (some j)) = .error .attributeError := by
  refine ⟨rfl, ?_⟩
  intro j hj
  cases j with
  | obj fields => exact absurd hj (by simp [Json.isObj])
  | null => rfl
  | bool b => rfl
  | num n => rfl
  | str s => rfl
  | arr elems => rfl

/-- Witness for C9 at a top-level JSON array body. -/
theorem malformed_body_uncaught_witness :
    Json.isObj (.arr []) = false ∧
    fetch_jobs_for_query (.body (some (.arr []))) = .error .attributeError :=
  ⟨rfl, malformed_body_uncaught.2 (.arr []) rfl⟩

/-- C10: a raw listing whose identifier is the empty string (the same value
a missing identifier defaults to) is discarded with the state unchanged, so
it is never marked seen; and every listing in a produced output has a
nonempty identifier. -/
theorem empty_id_discarded :
    (∀ (c : Int) (st : LoopState) (job : RawListing),
        job.job_id = "" → processJob c st job = .ok st) ∧
    (∀ (c : Int) (fetched : List (List RawListing)) (out : List NormalizedListing),
        runPipeline c fetched = .ok out → ∀ j ∈ out, j.id ≠ "") := by
  constructor
  · intro c st job h
    unfold processJob
    rw [if_pos (Or.inl h)]
  · intro c fetched out h j hj
    unfold runPipeline at h
    split at h
    · exact Except.noConfusion h
    · next st heq =>
      injection h with h
      subst h
      have hg := loopSearches_good fetched c ⟨[], []⟩ st goodState_init heq
      exact hg.2.2 j ((List.perm_insertionSort dateDesc st.all_jobs).mem_iff.mp hj)

/-- Witness for C10: the empty-identifier listing is dropped from a concrete
run whose output keeps only the well-identified listing. -/
theorem empty_id_discarded_witness :
    processJob 0 ⟨[], []⟩ exJobEmptyId = .ok ⟨[], []⟩ ∧
    ∀ j ∈ [buildListing exJobA], j.id ≠ "" := by
  constructor
  · exact empty_id_discarded.1 0 ⟨[], []⟩ exJobEmptyId rfl
  · exact empty_id_discarded.2 0 [[exJobEmptyId, exJobA]] [buildListing exJobA] rfl
